import Mathlib

/-!
Shallow embedding of the `project-grants` map-visualization front-end.

Numbers that the TypeScript source manipulates as JS numbers are modelled as
rationals (`ℚ`), except in the curved-path geometry where `Math.sqrt` forces
real numbers.  Calls to `Math.random()` are modelled by explicit oracle
parameters, so that properties can be proved for every outcome of the
randomness.
-/

namespace GrantsMap

/-- Record `ProjectData` from `lib/types` (src/unnamed/part_000). -/
structure ProjectData where
  project_title : String
  country_province : String
  latitude : ℚ
  longitude : ℚ
  direct_beneficiaries : ℚ
  indirect_beneficiaries : ℚ
deriving Repr, DecidableEq

/-- Function `getBeneficiaryColor` from src/components/particle-effect.tsx lines 9-14
(identical copies in the activity-node part of that file and in
src/unnamed/part_005): sequential threshold tests on the indirect-beneficiary
count. -/
def getBeneficiaryColor (indirect_beneficiaries : ℚ) : String :=
  if indirect_beneficiaries ≤ 100 then "#FF00FF"
  else if indirect_beneficiaries ≤ 500 then "#0074D9"
  else if indirect_beneficiaries ≥ 1000 then "#FF4136"
  else "#FFDC00"

/-- The aggregate values computed by `GlobalStats`
(src/components/global-stats.tsx lines 18-31). -/
structure GlobalStatsResult where
  activeInitiatives : ℕ
  countriesCount : ℕ
  totalDirectBeneficiaries : ℚ
  totalIndirectBeneficiaries : ℚ
deriving Repr, DecidableEq

/-- The `useMemo` body of `GlobalStats` (src/components/global-stats.tsx
lines 18-31): `projects.length`, the size of the `Set` of
`country_province` values (modelled with `List.dedup`), and the two
`reduce` sums. -/
def computeGlobalStats (projects : List ProjectData) : GlobalStatsResult :=
  { activeInitiatives := projects.length
    countriesCount := (projects.map (fun p => p.country_province)).dedup.length
    totalDirectBeneficiaries :=
      projects.foldl (fun sum p => sum + p.direct_beneficiaries) 0
    totalIndirectBeneficiaries :=
      projects.foldl (fun sum p => sum + p.indirect_beneficiaries) 0 }

theorem foldl_add_eq_sum (f : ProjectData → ℚ) (a : ℚ) (l : List ProjectData) :
    l.foldl (fun sum p => sum + f p) a = a + (l.map f).sum := by
  induction l generalizing a with
  | nil => simp
  | cons p ps ih => simp [List.foldl_cons, ih, add_assoc]

/-- C2: the beneficiary-tier classification is total and, following the
source's test order (≤100, ≤500, ≥1000, else), maps every count ≤ 100 to
magenta, every count in (100, 500] to blue, every count ≥ 1000 to red and
every count in (500, 1000) to gold. -/
theorem getBeneficiaryColor_tiers (c : ℚ) :
    (c ≤ 100 → getBeneficiaryColor c = "#FF00FF") ∧
    (100 < c → c ≤ 500 → getBeneficiaryColor c = "#0074D9") ∧
    (1000 ≤ c → getBeneficiaryColor c = "#FF4136") ∧
    (500 < c → c < 1000 → getBeneficiaryColor c = "#FFDC00") := by
  refine ⟨fun h => ?_, fun h1 h2 => ?_, fun h => ?_, fun h1 h2 => ?_⟩ <;>
    simp only [getBeneficiaryColor] <;>
    repeat first
      | rw [if_pos (by linarith)]
      | rw [if_neg (by intro hcon; linarith)]

/-- Witness for C2: the four tier branches evaluated at 50, 300, 777 and
2000. -/
theorem getBeneficiaryColor_tiers_witness :
    ((50 : ℚ) ≤ 100 ∧ getBeneficiaryColor 50 = "#FF00FF") ∧
    ((100 : ℚ) < 300 ∧ (300 : ℚ) ≤ 500 ∧ getBeneficiaryColor 300 = "#0074D9") ∧
    ((1000 : ℚ) ≤ 2000 ∧ getBeneficiaryColor 2000 = "#FF4136") ∧
    ((500 : ℚ) < 777 ∧ (777 : ℚ) < 1000 ∧ getBeneficiaryColor 777 = "#FFDC00") :=
  ⟨⟨by norm_num, (getBeneficiaryColor_tiers 50).1 (by norm_num)⟩,
   ⟨by norm_num, by norm_num,
     (getBeneficiaryColor_tiers 300).2.1 (by norm_num) (by norm_num)⟩,
   ⟨by norm_num, (getBeneficiaryColor_tiers 2000).2.2.1 (by norm_num)⟩,
   ⟨by norm_num, by norm_num,
     (getBeneficiaryColor_tiers 777).2.2.2 (by norm_num) (by norm_num)⟩⟩

/-- C3: the stats panel computes the list length, the cardinality of the set
of distinct `country_province` values, and the two beneficiary sums. -/
theorem computeGlobalStats_spec (projects : List ProjectData) :
    (computeGlobalStats projects).activeInitiatives = projects.length ∧
    (computeGlobalStats projects).countriesCount =
      (projects.map (fun p => p.country_province)).toFinset.card ∧
    (computeGlobalStats projects).totalDirectBeneficiaries =
      (projects.map (fun p => p.direct_beneficiaries)).sum ∧
    (computeGlobalStats projects).totalIndirectBeneficiaries =
      (projects.map (fun p => p.indirect_beneficiaries)).sum := by
  refine ⟨rfl, ?_, ?_, ?_⟩
  · simp [computeGlobalStats, List.card_toFinset]
  · simp [computeGlobalStats, foldl_add_eq_sum]
  · simp [computeGlobalStats, foldl_add_eq_sum]

/-- The numeric and color parameters computed by `getMarkerIcon`
(the activity-node part of src/components/particle-effect.tsx, lines
212-219 of that file): scale factor, clamped beneficiary factor, base size,
hover size and marker color.  The HTML string built from them is not
modelled. -/
structure MarkerIconParams where
  scaleFactor : ℚ
  beneficiaryFactor : ℚ
  baseSize : ℚ
  size : ℚ
  markerColor : String
deriving Repr, DecidableEq

/-- Function `getMarkerIcon` (numeric part), translated from the source:
`scaleFactor = isMobile ? 0.7 : 1`,
`beneficiaryFactor = Math.min(Math.max(indirectBeneficiaries / 10000, 0.5), 5)`,
`baseSize = (15 + beneficiaryFactor * 10) * scaleFactor`,
`size = isHovered ? baseSize * 1.2 : baseSize`,
`markerColor = getBeneficiaryColor(indirectBeneficiaries)`. -/
def getMarkerIcon (indirectBeneficiaries : ℚ) (isHovered isMobile : Bool) :
    MarkerIconParams :=
  let scaleFactor : ℚ := if isMobile then 7/10 else 1
  let beneficiaryFactor : ℚ := min (max (indirectBeneficiaries / 10000) (1/2)) 5
  let baseSize : ℚ := (15 + beneficiaryFactor * 10) * scaleFactor
  let size : ℚ := if isHovered then baseSize * (12/10) else baseSize
  { scaleFactor := scaleFactor
    beneficiaryFactor := beneficiaryFactor
    baseSize := baseSize
    size := size
    markerColor := getBeneficiaryColor indirectBeneficiaries }

theorem getMarkerIcon_baseSize_eq (i : ℚ) (hov mob : Bool) :
    (getMarkerIcon i hov mob).baseSize =
      (15 + min (max (i / 10000) (1/2)) 5 * 10) * (if mob then (7:ℚ)/10 else 1) := rfl

theorem markerScale_pos (mob : Bool) : (0:ℚ) < (if mob then (7:ℚ)/10 else 1) := by
  cases mob <;> norm_num

/-- C9: the marker color is the beneficiary-tier color of the
indirect-beneficiary count; the base size follows the clamp formula, is
monotone non-decreasing in the count, is constant on counts ≤ 5000, strictly
increasing on [5000, 50000], and constant on counts ≥ 50000. -/
theorem getMarkerIcon_spec (i j : ℚ) (hov mob : Bool) :
    (getMarkerIcon i hov mob).markerColor = getBeneficiaryColor i ∧
    (getMarkerIcon i hov mob).baseSize =
      (15 + min (max (i / 10000) (1/2)) 5 * 10) * (if mob then (7:ℚ)/10 else 1) ∧
    (i ≤ j → (getMarkerIcon i hov mob).baseSize ≤ (getMarkerIcon j hov mob).baseSize) ∧
    (i ≤ 5000 → j ≤ 5000 →
      (getMarkerIcon i hov mob).baseSize = (getMarkerIcon j hov mob).baseSize) ∧
    (5000 ≤ i → i < j → j ≤ 50000 →
      (getMarkerIcon i hov mob).baseSize < (getMarkerIcon j hov mob).baseSize) ∧
    (50000 ≤ i → 50000 ≤ j →
      (getMarkerIcon i hov mob).baseSize = (getMarkerIcon j hov mob).baseSize) := by
  have hs := markerScale_pos mob
  refine ⟨rfl, rfl, fun hij => ?_, fun hi hj => ?_, fun hi hij hj => ?_, fun hi hj => ?_⟩
  · rw [getMarkerIcon_baseSize_eq, getMarkerIcon_baseSize_eq]
    have hf : min (max (i / 10000) (1/2)) 5 ≤ min (max (j / 10000) (1/2)) (5:ℚ) := by
      have : i / 10000 ≤ j / 10000 := by linarith
      exact min_le_min (max_le_max this le_rfl) le_rfl
    have h15 : (15:ℚ) + min (max (i / 10000) (1/2)) 5 * 10 ≤
        15 + min (max (j / 10000) (1/2)) 5 * 10 := by linarith
    exact mul_le_mul_of_nonneg_right h15 (le_of_lt hs)
  · rw [getMarkerIcon_baseSize_eq, getMarkerIcon_baseSize_eq]
    have hfi : min (max (i / 10000) (1/2)) 5 = (1/2 : ℚ) := by
      rw [max_eq_right (by linarith), min_eq_left (by norm_num)]
    have hfj : min (max (j / 10000) (1/2)) 5 = (1/2 : ℚ) := by
      rw [max_eq_right (by linarith), min_eq_left (by norm_num)]
    rw [hfi, hfj]
  · rw [getMarkerIcon_baseSize_eq, getMarkerIcon_baseSize_eq]
    have hfi : min (max (i / 10000) (1/2)) 5 = i / 10000 := by
      rw [max_eq_left (by linarith), min_eq_left (by linarith)]
    have hfj : min (max (j / 10000) (1/2)) 5 = j / 10000 := by
      rw [max_eq_left (by linarith), min_eq_left (by linarith)]
    rw [hfi, hfj]
    have h15 : (15:ℚ) + i / 10000 * 10 < 15 + j / 10000 * 10 := by linarith
    exact mul_lt_mul_of_pos_right h15 hs
  · rw [getMarkerIcon_baseSize_eq, getMarkerIcon_baseSize_eq]
    have hfi : min (max (i / 10000) (1/2)) 5 = (5:ℚ) := by
      rw [max_eq_left (by linarith), min_eq_right (by linarith)]
    have hfj : min (max (j / 10000) (1/2)) 5 = (5:ℚ) := by
      rw [max_eq_left (by linarith), min_eq_right (by linarith)]
    rw [hfi, hfj]

/-- Witness for C9: the marker parameters evaluated at counts 2000 ≤ 3000
(constant plateau), 6000 < 7000 (strictly increasing region) and
60000, 70000 (upper plateau), on desktop without hover. -/
theorem getMarkerIcon_spec_witness :
    (getMarkerIcon 2000 false false).markerColor = getBeneficiaryColor 2000 ∧
    ((2000:ℚ) ≤ 3000 ∧
      (getMarkerIcon 2000 false false).baseSize ≤ (getMarkerIcon 3000 false false).baseSize) ∧
    ((2000:ℚ) ≤ 5000 ∧ (3000:ℚ) ≤ 5000 ∧
      (getMarkerIcon 2000 false false).baseSize = (getMarkerIcon 3000 false false).baseSize) ∧
    ((5000:ℚ) ≤ 6000 ∧ (6000:ℚ) < 7000 ∧ (7000:ℚ) ≤ 50000 ∧
      (getMarkerIcon 6000 false false).baseSize < (getMarkerIcon 7000 false false).baseSize) ∧
    ((50000:ℚ) ≤ 60000 ∧ (50000:ℚ) ≤ 70000 ∧
      (getMarkerIcon 60000 false false).baseSize = (getMarkerIcon 70000 false false).baseSize) :=
  ⟨(getMarkerIcon_spec 2000 2000 false false).1,
   ⟨by norm_num, (getMarkerIcon_spec 2000 3000 false false).2.2.1 (by norm_num)⟩,
   ⟨by norm_num, by norm_num,
     (getMarkerIcon_spec 2000 3000 false false).2.2.2.1 (by norm_num) (by norm_num)⟩,
   ⟨by norm_num, by norm_num, by norm_num,
     (getMarkerIcon_spec 6000 7000 false false).2.2.2.2.1
       (by norm_num) (by norm_num) (by norm_num)⟩,
   ⟨by norm_num, by norm_num,
     (getMarkerIcon_spec 60000 70000 false false).2.2.2.2.2
       (by norm_num) (by norm_num)⟩⟩

/-- Record `Connection` (src/components/connection-lines.tsx lines 10-15;
the copy in src/unnamed/part_002 has the beneficiary field required, modelled
here with `some`).  JS tuple coordinates become rational pairs. -/
structure Connection where
  fromPt : ℚ × ℚ
  toPt : ℚ × ℚ
  from_project_indirect_beneficiaries : Option ℚ := none
deriving Repr, DecidableEq

/-- On mobile `projects.slice(0, Math.min(15, projects.length))`, the whole
list on desktop (src/unnamed/part_002 line 126). -/
def projectsToProcess (projects : List ProjectData) (isMobile : Bool) :
    List ProjectData :=
  if isMobile then projects.take (min 15 projects.length) else projects

/-- Limit `maxConnectionsPerProject = isMobile ? 2 : 3`
(src/unnamed/part_002 line 122). -/
def maxConnectionsPerProject (isMobile : Bool) : ℕ := if isMobile then 2 else 3

/-- JS `array.splice(i, 1)`: the list with the element at index `i` removed. -/
def removeAt (l : List ProjectData) (i : ℕ) : List ProjectData :=
  l.take i ++ l.drop (i + 1)

/-- The inner `for` loop of the connection generator
(src/unnamed/part_002 lines 135-148): up to `n` draws, each one removing a
random target from the pool.  `Math.floor(Math.random() * length)` is
modelled by the oracle value `r k` reduced modulo the pool length, with `k`
a running draw counter, so the theorems quantify over every possible run. -/
def pickTargets (r : ℕ → ℕ) : ℕ → List ProjectData → ℕ →
    List ProjectData × ℕ
  | 0, _, k => ([], k)
  | n + 1, targets, k =>
    if targets.length = 0 then ([], k)
    else
      match targets[r k % targets.length]? with
      | none => ([], k)
      | some t =>
        (t :: (pickTargets r n (removeAt targets (r k % targets.length)) (k + 1)).1,
          (pickTargets r n (removeAt targets (r k % targets.length)) (k + 1)).2)

/-- The outer `forEach` of the connection generator
(src/unnamed/part_002 lines 128-149), producing for each processed project
the list of targets drawn for it.  `all` stays the full processed list used
by the `availableTargets` filter. -/
def connectionBlocksAux (r : ℕ → ℕ) (maxPer : ℕ) (all : List ProjectData) :
    List ProjectData → ℕ → List (ProjectData × List ProjectData)
  | [], _ => []
  | p :: ps, k =>
    let availableTargets :=
      all.filter (fun q => q.project_title ≠ p.project_title)
    let connectionsToMake := min maxPer availableTargets.length
    let picked := pickTargets r connectionsToMake availableTargets k
    (p, picked.1) :: connectionBlocksAux r maxPer all ps picked.2

/-- The per-source-project blocks of the generator effect
(src/unnamed/part_002 lines 119-154), empty when `projects.length ≤ 1`. -/
def connectionBlocks (r : ℕ → ℕ) (projects : List ProjectData)
    (isMobile : Bool) : List (ProjectData × List ProjectData) :=
  if 1 < projects.length then
    let pp := projectsToProcess projects isMobile
    connectionBlocksAux r (maxConnectionsPerProject isMobile) pp pp 0
  else []

/-- All (source, target) project pairs the generator connects, in push
order. -/
def generateConnectionPairs (r : ℕ → ℕ) (projects : List ProjectData)
    (isMobile : Bool) : List (ProjectData × ProjectData) :=
  (connectionBlocks r projects isMobile).flatMap
    (fun b => b.2.map (fun t => (b.1, t)))

/-- The pushed `Connection` object (src/unnamed/part_002 lines 142-146). -/
def toConnection (p t : ProjectData) : Connection :=
  { fromPt := (p.latitude, p.longitude)
    toPt := (t.latitude, t.longitude)
    from_project_indirect_beneficiaries := some p.indirect_beneficiaries }

/-- The `dynamicConnections` value set by the generator effect. -/
def generateConnections (r : ℕ → ℕ) (projects : List ProjectData)
    (isMobile : Bool) : List Connection :=
  (generateConnectionPairs r projects isMobile).map
    (fun pr => toConnection pr.1 pr.2)

theorem removeAt_subset (l : List ProjectData) (i : ℕ) :
    ∀ x ∈ removeAt l i, x ∈ l := by
  intro x hx
  rcases List.mem_append.mp hx with h | h
  · exact List.take_subset i l h
  · exact List.drop_subset (i + 1) l h

theorem pickTargets_mem (r : ℕ → ℕ) :
    ∀ (n : ℕ) (targets : List ProjectData) (k : ℕ),
      ∀ t ∈ (pickTargets r n targets k).1, t ∈ targets := by
  intro n
  induction n with
  | zero => intro targets k t ht; simp [pickTargets] at ht
  | succ m ih =>
    intro targets k t ht
    rw [pickTargets] at ht
    by_cases hlen : targets.length = 0
    · rw [if_pos hlen] at ht; simp at ht
    · rw [if_neg hlen] at ht
      rcases hget : targets[r k % targets.length]? with _ | t0
      · simp only [hget] at ht; simp at ht
      · simp only [hget, List.mem_cons] at ht
        rcases ht with rfl | ht
        · exact List.getElem?_mem hget
        · exact removeAt_subset _ _ t (ih _ _ t ht)

theorem pickTargets_length (r : ℕ → ℕ) :
    ∀ (n : ℕ) (targets : List ProjectData) (k : ℕ),
      (pickTargets r n targets k).1.length ≤ n := by
  intro n
  induction n with
  | zero => intro targets k; simp [pickTargets]
  | succ m ih =>
    intro targets k
    rw [pickTargets]
    by_cases hlen : targets.length = 0
    · rw [if_pos hlen]; simp
    · rw [if_neg hlen]
      rcases hget : targets[r k % targets.length]? with _ | t0
      · simp [hget]
      · simp only [hget, List.length_cons]
        exact Nat.succ_le_succ (ih _ _)

theorem connectionBlocksAux_spec (r : ℕ → ℕ) (maxPer : ℕ)
    (all : List ProjectData) :
    ∀ (l : List ProjectData) (k : ℕ),
      ∀ b ∈ connectionBlocksAux r maxPer all l k,
        b.2.length ≤ maxPer ∧
        ∀ t ∈ b.2, t ∈ all ∧ t.project_title ≠ b.1.project_title := by
  intro l
  induction l with
  | nil => intro k b hb; simp [connectionBlocksAux] at hb
  | cons p ps ih =>
    intro k b hb
    rw [connectionBlocksAux] at hb
    simp only [List.mem_cons] at hb
    rcases hb with rfl | hb
    · constructor
      · exact le_trans (pickTargets_length r _ _ _) (min_le_left _ _)
      · intro t ht
        have hmem := pickTargets_mem r _ _ _ t ht
        have := List.mem_filter.mp hmem
        exact ⟨this.1, by simpa using this.2⟩
    · exact ih _ b hb

/-- C6: every pair produced by the `MapComponent` connection generator, for
every randomness outcome `r`, joins two projects with different titles; each
processed source project's block contains at most `maxConnectionsPerProject`
targets, and that limit is 3 on desktop and 2 on mobile. -/
theorem generateConnections_spec (r : ℕ → ℕ) (projects : List ProjectData)
    (isMobile : Bool) :
    (∀ pr ∈ generateConnectionPairs r projects isMobile,
      pr.2.project_title ≠ pr.1.project_title) ∧
    (∀ b ∈ connectionBlocks r projects isMobile,
      b.2.length ≤ maxConnectionsPerProject isMobile ∧
      ∀ t ∈ b.2, t.project_title ≠ b.1.project_title) ∧
    maxConnectionsPerProject false = 3 ∧ maxConnectionsPerProject true = 2 ∧
    generateConnections r projects isMobile =
      (generateConnectionPairs r projects isMobile).map
        (fun pr => toConnection pr.1 pr.2) := by
  have hblocks : ∀ b ∈ connectionBlocks r projects isMobile,
      b.2.length ≤ maxConnectionsPerProject isMobile ∧
      ∀ t ∈ b.2, t.project_title ≠ b.1.project_title := by
    intro b hb
    rw [connectionBlocks] at hb
    by_cases hlen : 1 < projects.length
    · rw [if_pos hlen] at hb
      have := connectionBlocksAux_spec r (maxConnectionsPerProject isMobile)
        (projectsToProcess projects isMobile)
        (projectsToProcess projects isMobile) 0 b hb
      exact ⟨this.1, fun t ht => (this.2 t ht).2⟩
    · rw [if_neg hlen] at hb; simp at hb
  refine ⟨?_, hblocks, rfl, rfl, rfl⟩
  intro pr hpr
  rw [generateConnectionPairs] at hpr
  rcases List.mem_flatMap.mp hpr with ⟨b, hb, hmem⟩
  rcases List.mem_map.mp hmem with ⟨t, ht, rfl⟩
  exact (hblocks b hb).2 t ht

/-- Mutable locals of the `HexGrid` animation loop
(src/components/hex-grid.tsx lines 61-66): `lastFrameTime`, `time` and
`frameSkipCounter`. -/
structure HexGridState where
  lastFrameTime : ℚ
  time : ℚ
  frameSkipCounter : ℕ
deriving Repr, DecidableEq

/-- Constant `targetFPS = isMobile ? 15 : 24` (src/components/hex-grid.tsx line 64). -/
def hexTargetFPS (isMobile : Bool) : ℚ := if isMobile then 15 else 24

/-- Constant `frameInterval = 1000 / targetFPS` (src/components/hex-grid.tsx line 65). -/
def hexFrameInterval (isMobile : Bool) : ℚ := 1000 / hexTargetFPS isMobile

/-- Constant `frameSkipThreshold = isMobile ? 3 : 1`
(src/components/hex-grid.tsx line 67). -/
def frameSkipThreshold (isMobile : Bool) : ℕ := if isMobile then 3 else 1

/-- One invocation of the `HexGrid` `animate` callback
(src/components/hex-grid.tsx lines 88-163) as a state transition; the `Bool`
result records whether the hex grid was drawn in this frame.  The canvas
drawing itself is not modelled, only the throttling control flow and the
`time` update. -/
def hexAnimate (isMobile : Bool) (s : HexGridState) (timestamp : ℚ) :
    HexGridState × Bool :=
  if timestamp - s.lastFrameTime < hexFrameInterval isMobile then (s, false)
  else if s.frameSkipCounter + 1 < frameSkipThreshold isMobile then
    ({ s with lastFrameTime := timestamp,
              frameSkipCounter := s.frameSkipCounter + 1 }, false)
  else
    ({ lastFrameTime := timestamp, frameSkipCounter := 0,
       time := s.time + 3/1000 }, true)

/-- Mutable throttling local of the `ParticleEffect` animation loop
(src/components/particle-effect.tsx line 93): `lastFrameTime`. -/
structure ParticleLoopState where
  lastFrameTime : ℚ
deriving Repr, DecidableEq

/-- Constant `targetFPS = isMobile ? 30 : 60`
(src/components/particle-effect.tsx line 94). -/
def particleTargetFPS (isMobile : Bool) : ℚ := if isMobile then 30 else 60

/-- Constant `frameInterval = 1000 / targetFPS`
(src/components/particle-effect.tsx line 95). -/
def particleFrameInterval (isMobile : Bool) : ℚ :=
  1000 / particleTargetFPS isMobile

/-- One invocation of the `ParticleEffect` `animate` callback
(src/components/particle-effect.tsx lines 97-159) as a state transition on
its throttling state; the `Bool` result records whether this frame cleared
the canvas and drew particles (everything after the early return). -/
def particleAnimate (isMobile : Bool) (s : ParticleLoopState)
    (timestamp : ℚ) : ParticleLoopState × Bool :=
  if timestamp - s.lastFrameTime < particleFrameInterval isMobile then
    (s, false)
  else ({ lastFrameTime := timestamp }, true)

/-- C7: both canvas loops are frame-rate throttled.  Any frame whose
timestamp is within `frameInterval` of the recorded last-frame time — in
particular within `frameInterval` of the last rendered frame, whose time
never exceeds the recorded one — leaves the state unchanged and draws
nothing; a drawing frame records its own timestamp; and the mobile target
frame rates (hex 15, particles 30) are below the desktop ones (24, 60). -/
theorem animationThrottle_spec (mob : Bool) (hs : HexGridState)
    (ps : ParticleLoopState) (ts : ℚ) :
    (ts - hs.lastFrameTime < hexFrameInterval mob →
      hexAnimate mob hs ts = (hs, false)) ∧
    (∀ tr : ℚ, tr ≤ hs.lastFrameTime → ts - tr < hexFrameInterval mob →
      hexAnimate mob hs ts = (hs, false)) ∧
    (ts - ps.lastFrameTime < particleFrameInterval mob →
      particleAnimate mob ps ts = (ps, false)) ∧
    (∀ tr : ℚ, tr ≤ ps.lastFrameTime → ts - tr < particleFrameInterval mob →
      particleAnimate mob ps ts = (ps, false)) ∧
    ((hexAnimate mob hs ts).2 = true →
      (hexAnimate mob hs ts).1.lastFrameTime = ts) ∧
    ((particleAnimate mob ps ts).2 = true →
      (particleAnimate mob ps ts).1.lastFrameTime = ts) ∧
    hexTargetFPS true = 15 ∧ hexTargetFPS false = 24 ∧
    particleTargetFPS true = 30 ∧ particleTargetFPS false = 60 ∧
    hexTargetFPS true < hexTargetFPS false ∧
    particleTargetFPS true < particleTargetFPS false := by
  have hthrH : ts - hs.lastFrameTime < hexFrameInterval mob →
      hexAnimate mob hs ts = (hs, false) := by
    intro h; rw [hexAnimate, if_pos h]
  have hthrP : ts - ps.lastFrameTime < particleFrameInterval mob →
      particleAnimate mob ps ts = (ps, false) := by
    intro h; rw [particleAnimate, if_pos h]
  refine ⟨hthrH, fun tr htr h => hthrH (by linarith), hthrP,
    fun tr htr h => hthrP (by linarith), ?_, ?_, rfl, rfl, rfl, rfl,
    by norm_num [hexTargetFPS], by norm_num [particleTargetFPS]⟩
  · rw [hexAnimate]
    by_cases h1 : ts - hs.lastFrameTime < hexFrameInterval mob
    · rw [if_pos h1]; intro h; simp at h
    · rw [if_neg h1]
      by_cases h2 : hs.frameSkipCounter + 1 < frameSkipThreshold mob
      · rw [if_pos h2]; intro h; simp at h
      · rw [if_neg h2]; intro _; rfl
  · rw [particleAnimate]
    by_cases h1 : ts - ps.lastFrameTime < particleFrameInterval mob
    · rw [if_pos h1]; intro h; simp at h
    · rw [if_neg h1]; intro _; rfl

/-- Witness for C7: on desktop, a frame 10 ms after the last one is dropped
by both loops (the hex interval is 1000/24 ms and the particle interval
1000/60 ms). -/
theorem animationThrottle_spec_witness :
    ((10 : ℚ) - 0 < hexFrameInterval false ∧
      hexAnimate false ⟨0, 0, 0⟩ 10 = (⟨0, 0, 0⟩, false)) ∧
    ((10 : ℚ) - 0 < particleFrameInterval false ∧
      particleAnimate false ⟨0⟩ 10 = (⟨0⟩, false)) :=
  ⟨⟨by norm_num [hexFrameInterval, hexTargetFPS],
    (animationThrottle_spec false ⟨0, 0, 0⟩ ⟨0⟩ 10).1
      (by norm_num [hexFrameInterval, hexTargetFPS])⟩,
   ⟨by norm_num [particleFrameInterval, particleTargetFPS],
    (animationThrottle_spec false ⟨0, 0, 0⟩ ⟨0⟩ 10).2.2.1
      (by norm_num [particleFrameInterval, particleTargetFPS])⟩⟩

/-- Constant `DEFAULT_MAX_CONNECTIONS = 21`
(src/components/connection-lines.tsx line 306). -/
def DEFAULT_MAX_CONNECTIONS : ℕ := 21

/-- One coordinate component of the grouping key
`${conn.from[0].toFixed(4)}-${conn.from[1].toFixed(4)}`
(src/components/connection-lines.tsx line 534).  `Number.prototype.toFixed`
prints a leading sign for negative inputs and rounds the magnitude to the
nearest multiple of 10⁻⁴, ties away from zero; the resulting string is
modelled by the pair (sign flag, rounded magnitude scaled by 10⁴). -/
def toFixed4Key (q : ℚ) : Bool × ℤ :=
  (decide (q < 0), ((20000 * q.num.natAbs + q.den) / (2 * q.den) : ℕ))

/-- Sanity check for `toFixed4Key`: its numeric component is exactly the
round-half-up of `|q| · 10⁴`, as performed by `toFixed(4)` on the magnitude
(the definition uses num/den arithmetic only so that it evaluates inside the
kernel). -/
theorem toFixed4Key_eq_floor (q : ℚ) :
    (toFixed4Key q).2 = ⌊|q| * 10000 + 1/2⌋ := by
  have hdpos : (0:ℚ) < (q.den : ℚ) := by
    exact_mod_cast q.den_pos
  have hq : |q| = (q.num.natAbs : ℚ) / (q.den : ℚ) := by
    rw [Int.cast_natAbs, Int.cast_abs, ← abs_of_pos hdpos, ← abs_div,
      Rat.num_div_den]
  have hval : (((20000 * q.num.natAbs + q.den : ℕ) : ℚ)) /
      (((2 * q.den : ℕ) : ℚ)) = |q| * 10000 + 1/2 := by
    rw [hq]
    push_cast
    field_simp
    ring
  have h0 : (0:ℚ) ≤ (((20000 * q.num.natAbs + q.den : ℕ) : ℚ)) /
      (((2 * q.den : ℕ) : ℚ)) := by positivity
  calc ((toFixed4Key q).2 : ℤ)
      = (((20000 * q.num.natAbs + q.den) / (2 * q.den) : ℕ) : ℤ) := rfl
    _ = ((⌊(((20000 * q.num.natAbs + q.den : ℕ) : ℚ)) /
          (((2 * q.den : ℕ) : ℚ))⌋₊ : ℕ) : ℤ) := by
          rw [Nat.floor_div_eq_div]
    _ = ⌊(((20000 * q.num.natAbs + q.den : ℕ) : ℚ)) /
          (((2 * q.den : ℕ) : ℚ))⌋ := Int.natCast_floor_eq_floor h0
    _ = ⌊|q| * 10000 + 1/2⌋ := by rw [hval]

/-- The full grouping key of a connection: both components of its `from`
coordinate, printed to 4 decimal places. -/
def connKey (c : Connection) : (Bool × ℤ) × (Bool × ℤ) :=
  (toFixed4Key c.fromPt.1, toFixed4Key c.fromPt.2)

/-- Defaulted count `a.from_project_indirect_beneficiaries || 0`
(src/components/connection-lines.tsx line 549): a missing value defaults
to 0 (for present numbers, `x || 0` and `x` compare identically). -/
def bene (c : Connection) : ℚ :=
  c.from_project_indirect_beneficiaries.getD 0

/-- The keys of `projectGroups` in JS `Record` insertion order, i.e. in
order of first occurrence (src/components/connection-lines.tsx
lines 532-541). -/
def keysInOrder (conns : List Connection) : List ((Bool × ℤ) × (Bool × ℤ)) :=
  conns.foldl
    (fun acc c => if connKey c ∈ acc then acc else acc ++ [connKey c]) []

/-- The group stored under key `k`: the connections with that `from` key,
in input order (src/components/connection-lines.tsx lines 532-541). -/
def groupFor (conns : List Connection) (k : (Bool × ℤ) × (Bool × ℤ)) :
    List Connection :=
  conns.filter (fun c => connKey c = k)

/-- Insertion step of a stable descending sort by `bene`: the new element
goes in front of the first element it is ≥ to, so earlier input elements
stay first among equals — the behaviour of the stable ES
`sort((a, b) => beneB - beneA)` used at
src/components/connection-lines.tsx lines 548-552 and 575-579. -/
def insertDescBy (c : Connection) : List Connection → List Connection
  | [] => [c]
  | d :: ds => if bene d ≤ bene c then c :: d :: ds else d :: insertDescBy c ds

/-- Stable descending sort by `bene` (see `insertDescBy`). -/
def sortDescBy : List Connection → List Connection
  | [] => []
  | c :: cs => insertDescBy c (sortDescBy cs)

/-- Function `guaranteedConnections` (src/components/connection-lines.tsx
lines 544-557): for each project group, the first element of the group
sorted descending by beneficiaries. -/
def guaranteedConnections (conns : List Connection) : List Connection :=
  (keysInOrder conns).filterMap
    (fun k => (sortDescBy (groupFor conns k)).head?)

/-- The endpoint comparison used to exclude already-guaranteed connections
(src/components/connection-lines.tsx lines 567-570). -/
def sameEndpoints (a b : Connection) : Bool :=
  decide (a.fromPt = b.fromPt ∧ a.toPt = b.toPt)

/-- The connection-selection part of the `useMemo` in `ConnectionLines`
(src/components/connection-lines.tsx lines 522-601).  The NaN/array-shape
validity filter of lines 524-529 keeps every connection in this rational
model and is omitted.  The random shuffle
`[...topRemaining].sort(() => Math.random() - 0.5)` is modelled by the
oracle `σ`, so the theorems hold for every shuffle outcome. -/
def selectConnections (σ : List Connection → List Connection)
    (conns : List Connection) (maxConnections : ℕ) : List Connection :=
  let validConnections := conns
  let guaranteed := guaranteedConnections validConnections
  let remainingSlots : ℤ := (maxConnections : ℤ) - guaranteed.length
  let additionalConnections :=
    if 0 < remainingSlots then
      let remainingConnections := validConnections.filter
        (fun c => ¬ guaranteed.any (fun g => sameEndpoints g c))
      let sortedRemaining := sortDescBy remainingConnections
      let topRemaining := sortedRemaining.take
        (min (remainingSlots.toNat * 2) sortedRemaining.length)
      (σ topRemaining).take remainingSlots.toNat
    else []
  guaranteed ++ additionalConnections

theorem mem_insertDescBy (x c : Connection) :
    ∀ l : List Connection, c ∈ insertDescBy x l ↔ c = x ∨ c ∈ l := by
  intro l
  induction l with
  | nil => simp [insertDescBy]
  | cons d ds ih =>
    rw [insertDescBy]
    by_cases h : bene d ≤ bene x
    · rw [if_pos h]; simp
    · rw [if_neg h]
      simp only [List.mem_cons, ih]
      tauto

theorem mem_sortDescBy (c : Connection) :
    ∀ l : List Connection, c ∈ sortDescBy l ↔ c ∈ l := by
  intro l
  induction l with
  | nil => simp [sortDescBy]
  | cons d ds ih =>
    rw [sortDescBy, mem_insertDescBy]
    simp [ih]

theorem sortDescBy_head_max :
    ∀ l : List Connection, l ≠ [] →
      ∃ c₀, (sortDescBy l).head? = some c₀ ∧ ∀ c ∈ l, bene c ≤ bene c₀ := by
  intro l
  induction l with
  | nil => intro h; exact absurd rfl h
  | cons x xs ih =>
    intro _
    rcases hxs : xs with _ | ⟨y, ys⟩
    · exact ⟨x, rfl, by simp⟩
    · rw [← hxs]
      have hne : xs ≠ [] := by rw [hxs]; exact List.cons_ne_nil _ _
      rcases ih hne with ⟨c₁, hhead, hmax⟩
      rcases hsort : sortDescBy xs with _ | ⟨c₁', rest⟩
      · rw [hsort] at hhead; simp at hhead
      · rw [hsort] at hhead
        simp only [List.head?_cons, Option.some_inj] at hhead
        subst hhead
        rw [sortDescBy, hsort, insertDescBy]
        by_cases h : bene c₁' ≤ bene x
        · rw [if_pos h]
          refine ⟨x, rfl, ?_⟩
          intro c hc
          rcases List.mem_cons.mp hc with rfl | hc
          · exact le_refl _
          · exact le_trans (hmax c hc) h
        · rw [if_neg h]
          refine ⟨c₁', rfl, ?_⟩
          intro c hc
          rcases List.mem_cons.mp hc with rfl | hc
          · exact le_of_not_le h
          · exact hmax c hc

theorem mem_keysInOrder_aux (x : (Bool × ℤ) × (Bool × ℤ)) :
    ∀ (l : List Connection) (acc : List ((Bool × ℤ) × (Bool × ℤ))),
      (x ∈ l.foldl
        (fun acc c => if connKey c ∈ acc then acc else acc ++ [connKey c]) acc
      ↔ x ∈ acc ∨ ∃ c ∈ l, connKey c = x) := by
  intro l
  induction l with
  | nil => intro acc; simp
  | cons c cs ih =>
    intro acc
    rw [List.foldl_cons, ih]
    by_cases h : connKey c ∈ acc
    · rw [if_pos h]
      constructor
      · rintro (hx | ⟨d, hd, hk⟩)
        · exact Or.inl hx
        · exact Or.inr ⟨d, List.mem_cons_of_mem _ hd, hk⟩
      · rintro (hx | ⟨d, hd, hk⟩)
        · exact Or.inl hx
        · rcases List.mem_cons.mp hd with rfl | hd
          · exact Or.inl (hk ▸ h)
          · exact Or.inr ⟨d, hd, hk⟩
    · rw [if_neg h]
      constructor
      · rintro (hx | ⟨d, hd, hk⟩)
        · rcases List.mem_append.mp hx with hx | hx
          · exact Or.inl hx
          · rcases List.mem_singleton.mp hx with rfl
            exact Or.inr ⟨c, List.mem_cons_self c cs, rfl⟩
        · exact Or.inr ⟨d, List.mem_cons_of_mem _ hd, hk⟩
      · rintro (hx | ⟨d, hd, hk⟩)
        · exact Or.inl (List.mem_append.mpr (Or.inl hx))
        · rcases List.mem_cons.mp hd with rfl | hd
          · exact Or.inl
              (List.mem_append.mpr (Or.inr (List.mem_singleton.mpr hk.symm)))
          · exact Or.inr ⟨d, hd, hk⟩

theorem mem_keysInOrder (conns : List Connection)
    (k : (Bool × ℤ) × (Bool × ℤ)) :
    k ∈ keysInOrder conns ↔ ∃ c ∈ conns, connKey c = k := by
  rw [keysInOrder, mem_keysInOrder_aux]
  simp

theorem guaranteed_length_le (conns : List Connection) :
    (guaranteedConnections conns).length ≤ (keysInOrder conns).length :=
  List.length_filterMap_le _ _

/-- Amended C1: the number of selected connections is bounded by the larger
of `maxConnections` and the number of distinct `from`-coordinate groups; in
particular the `maxConnections` bound holds whenever the number of groups
does not exceed it.  (The unconditional `maxConnections` bound fails, see
the counterexample.) -/
theorem selectConnections_bound (σ : List Connection → List Connection)
    (conns : List Connection) (maxConnections : ℕ) :
    (selectConnections σ conns maxConnections).length ≤
      max maxConnections (keysInOrder conns).length ∧
    ((keysInOrder conns).length ≤ maxConnections →
      (selectConnections σ conns maxConnections).length ≤ maxConnections) := by
  have hg := guaranteed_length_le conns
  have hmx := le_max_left maxConnections (keysInOrder conns).length
  have hmk := le_max_right maxConnections (keysInOrder conns).length
  simp only [selectConnections, List.length_append]
  by_cases hslot :
      (0 : ℤ) < (maxConnections : ℤ) - ((guaranteedConnections conns).length : ℤ)
  · simp only [if_pos hslot]
    have htake := Nat.add_le_add_left
      (List.length_take_le
        ((maxConnections : ℤ) - ((guaranteedConnections conns).length : ℤ)).toNat
        (σ ((sortDescBy (conns.filter
          (fun c => ¬ (guaranteedConnections conns).any
            (fun g => sameEndpoints g c)))).take
          (min ((((maxConnections : ℤ) -
            ((guaranteedConnections conns).length : ℤ)).toNat) * 2)
            (sortDescBy (conns.filter
              (fun c => ¬ (guaranteedConnections conns).any
                (fun g => sameEndpoints g c)))).length))))
      (guaranteedConnections conns).length
    exact ⟨le_trans htake (by omega), fun _ => le_trans htake (by omega)⟩
  · simp only [if_neg hslot]
    exact ⟨by simpa using le_trans hg hmk, fun hK => by simp; omega⟩

/-- Twenty-two connections from 22 distinct `from` coordinates: input refuting the
unconditional `maxConnections` bound. -/
def manyConns : List Connection :=
  (List.range 22).map (fun i => { fromPt := ((i : ℚ), 0), toPt := (100, 100) })

/-- Counterexample to C1 as stated: with the default limit of 21 and 22
connections originating at 22 distinct coordinates, the guaranteed
per-project connections alone number 22, and all of them are selected for
rendering. -/
theorem selectConnections_limit_counterexample :
    ¬ ((selectConnections id manyConns DEFAULT_MAX_CONNECTIONS).length ≤
        DEFAULT_MAX_CONNECTIONS) := by decide

/-- Witness for amended C1: on an input whose distinct `from`-coordinate
count (1) is at most the limit, the selection respects the limit. -/
theorem selectConnections_bound_witness :
    (keysInOrder manyConns.tail).length ≤ DEFAULT_MAX_CONNECTIONS ∧
    (selectConnections id manyConns.tail DEFAULT_MAX_CONNECTIONS).length ≤
      DEFAULT_MAX_CONNECTIONS :=
  ⟨by decide, (selectConnections_bound id manyConns.tail
    DEFAULT_MAX_CONNECTIONS).2 (by decide)⟩

/-- C10: every distinct `from` coordinate (keyed by both components printed
to 4 decimal places) attaining at least one connection in the input
contributes to the rendered selection a connection from that coordinate
whose (defaulted) beneficiary count is maximal within the coordinate's
group — for every shuffle outcome `σ` and every limit. -/
theorem selectConnections_coverage (σ : List Connection → List Connection)
    (conns : List Connection) (maxConnections : ℕ)
    (k : (Bool × ℤ) × (Bool × ℤ))
    (hk : ∃ c ∈ conns, connKey c = k) :
    ∃ c ∈ selectConnections σ conns maxConnections,
      connKey c = k ∧ ∀ c' ∈ conns, connKey c' = k → bene c' ≤ bene c := by
  have hkmem : k ∈ keysInOrder conns := (mem_keysInOrder conns k).mpr hk
  rcases hk with ⟨c0, hc0, hkey0⟩
  have hgrp : c0 ∈ groupFor conns k := by
    rw [groupFor, List.mem_filter]
    exact ⟨hc0, by simp [hkey0]⟩
  have hne : groupFor conns k ≠ [] := List.ne_nil_of_mem hgrp
  rcases sortDescBy_head_max (groupFor conns k) hne with ⟨cm, hhead, hmax⟩
  have hmemg : cm ∈ guaranteedConnections conns := by
    rw [guaranteedConnections, List.mem_filterMap]
    exact ⟨k, hkmem, hhead⟩
  have hcmgrp : cm ∈ groupFor conns k := by
    refine (mem_sortDescBy cm (groupFor conns k)).mp ?_
    rcases hs : sortDescBy (groupFor conns k) with _ | ⟨a, rest⟩
    · rw [hs] at hhead; simp at hhead
    · rw [hs] at hhead
      simp only [List.head?_cons, Option.some_inj] at hhead
      rw [hhead]
      exact List.mem_cons_self cm rest
  refine ⟨cm, ?_, ?_, ?_⟩
  · exact List.mem_append_left _ hmemg
  · have := (List.mem_filter.mp hcmgrp).2
    simpa using this
  · intro c' hc' hk'
    exact hmax c' (List.mem_filter.mpr ⟨hc', by simp [hk']⟩)

/-- A single concrete connection and input list used to witness C10. -/
def demoConn : Connection :=
  { fromPt := (1, 2), toPt := (3, 4),
    from_project_indirect_beneficiaries := some 5 }

theorem selectConnections_coverage_witness :
    (∃ c ∈ [demoConn], connKey c = connKey demoConn) ∧
    ∃ c ∈ selectConnections id [demoConn] DEFAULT_MAX_CONNECTIONS,
      connKey c = connKey demoConn ∧
      ∀ c' ∈ [demoConn], connKey c' = connKey demoConn →
        bene c' ≤ bene c :=
  ⟨⟨demoConn, List.mem_singleton.mpr rfl, rfl⟩,
   selectConnections_coverage id [demoConn] DEFAULT_MAX_CONNECTIONS
     (connKey demoConn) ⟨demoConn, List.mem_singleton.mpr rfl, rfl⟩⟩

/-- Function `checkVisibility` (src/components/connection-lines.tsx lines 607-615):
a connection is visible when at least one endpoint is inside the current map
bounds.  Leaflet's `bounds.contains` is an external-library predicate,
modelled by an abstract Boolean containment test on coordinates. -/
def checkVisibility (contains : ℚ × ℚ → Bool) (conns : List Connection) :
    Bool :=
  conns.any (fun conn => contains conn.fromPt || contains conn.toPt)

/-- The visibility/timer state of `ConnectionLines`: the `isVisible` state
(src/components/connection-lines.tsx line 519) and whether the two
`setInterval` timers of lines 631-681 are currently running. -/
structure ConnectionLinesState where
  isVisible : Bool
  animationIntervalRunning : Bool
  pulseIntervalRunning : Bool
deriving Repr, DecidableEq

/-- The component's reaction to a `moveend`/`zoomend` event
(src/components/connection-lines.tsx lines 604-628) followed by the re-run
of the interval effect (lines 631-681): `isVisible` is recomputed by
`checkVisibility`, and both intervals are cleared when it is `false` and
(re)started when it is `true`. -/
def onMapViewChange (contains : ℚ × ℚ → Bool) (conns : List Connection)
    (_s : ConnectionLinesState) : ConnectionLinesState :=
  let v := checkVisibility contains conns
  { isVisible := v
    animationIntervalRunning := v
    pulseIntervalRunning := v }

/-- Whether `ConnectionLines` renders its lines: it returns `null` when the
connection list is empty (src/components/connection-lines.tsx lines 502-504)
or when `isVisible` is `false` (line 684). -/
def rendersConnections (conns : List Connection)
    (s : ConnectionLinesState) : Bool :=
  !conns.isEmpty && s.isVisible

/-- C8: after a move/zoom event, if every selected connection has both
endpoints outside the map bounds then the component renders nothing and
both animation intervals are cleared; if at least one endpoint of some
connection is in view, the component renders and both intervals run. -/
theorem connectionLines_visibility_spec (contains : ℚ × ℚ → Bool)
    (conns : List Connection) (s : ConnectionLinesState) :
    ((∀ c ∈ conns, contains c.fromPt = false ∧ contains c.toPt = false) →
      rendersConnections conns (onMapViewChange contains conns s) = false ∧
      (onMapViewChange contains conns s).animationIntervalRunning = false ∧
      (onMapViewChange contains conns s).pulseIntervalRunning = false) ∧
    ((∃ c ∈ conns, contains c.fromPt = true ∨ contains c.toPt = true) →
      rendersConnections conns (onMapViewChange contains conns s) = true ∧
      (onMapViewChange contains conns s).animationIntervalRunning = true ∧
      (onMapViewChange contains conns s).pulseIntervalRunning = true) := by
  constructor
  · intro h
    have hv : checkVisibility contains conns = false := by
      rw [checkVisibility]
      rw [List.any_eq_false]
      intro c hc
      rcases h c hc with ⟨h1, h2⟩
      simp [h1, h2]
    refine ⟨?_, ?_, ?_⟩ <;>
      simp [rendersConnections, onMapViewChange, hv]
  · rintro ⟨c, hc, hor⟩
    have hv : checkVisibility contains conns = true := by
      rw [checkVisibility, List.any_eq_true]
      refine ⟨c, hc, ?_⟩
      rcases hor with h | h <;> simp [h]
    have hne : conns.isEmpty = false := by
      rcases conns with _ | ⟨a, as⟩
      · simp at hc
      · rfl
    refine ⟨?_, ?_, ?_⟩ <;>
      simp [rendersConnections, onMapViewChange, hv, hne]

/-- Concrete containment predicate for the C8 witness: the square with
south-west corner (0, 0) and north-east corner (10, 10). -/
def demoContains (p : ℚ × ℚ) : Bool :=
  decide (0 ≤ p.1 ∧ p.1 ≤ 10 ∧ 0 ≤ p.2 ∧ p.2 ≤ 10)

/-- A connection entirely outside the demo bounds. -/
def outConn : Connection := { fromPt := (20, 20), toPt := (30, 30) }

/-- A connection whose `from` endpoint is inside the demo bounds. -/
def inConn : Connection := { fromPt := (5, 5), toPt := (30, 30) }

theorem connectionLines_visibility_spec_witness :
    ((∀ c ∈ [outConn], demoContains c.fromPt = false ∧
        demoContains c.toPt = false) ∧
      rendersConnections [outConn]
        (onMapViewChange demoContains [outConn] ⟨true, true, true⟩) = false) ∧
    ((∃ c ∈ [inConn], demoContains c.fromPt = true ∨
        demoContains c.toPt = true) ∧
      rendersConnections [inConn]
        (onMapViewChange demoContains [inConn] ⟨false, false, false⟩) = true) :=
  ⟨⟨by decide,
    ((connectionLines_visibility_spec demoContains [outConn]
      ⟨true, true, true⟩).1 (by decide)).1⟩,
   ⟨by decide,
    ((connectionLines_visibility_spec demoContains [inConn]
      ⟨false, false, false⟩).2 (by decide)).1⟩⟩

/-- Constant `DEFAULT_CURVE_STEPS = 21`
(src/components/connection-lines.tsx line 307). -/
def DEFAULT_CURVE_STEPS : ℕ := 21

open Classical

/-- The quadratic Bézier formula of the path loop
(src/components/connection-lines.tsx lines 464-475), on both coordinates. -/
def bezierPoint (fromPt toPt ctrl : ℝ × ℝ) (t : ℝ) : ℝ × ℝ :=
  ((1 - t) * (1 - t) * fromPt.1 + 2 * (1 - t) * t * ctrl.1 + t * t * toPt.1,
   (1 - t) * (1 - t) * fromPt.2 + 2 * (1 - t) * t * ctrl.2 + t * t * toPt.2)

/-- JS `Math.trunc`-style truncation toward zero, used to model the `%`
remainder operator on numbers. -/
noncomputable def jsTrunc (x : ℝ) : ℤ := if x < 0 then -⌊-x⌋ else ⌊x⌋

/-- The JS `%` operator on numbers: remainder with the dividend's sign,
`a - b * trunc(a / b)`. -/
noncomputable def jsMod (a b : ℝ) : ℝ := a - b * jsTrunc (a / b)

/-- The control-point computation of `generateCurvedPath`
(src/components/connection-lines.tsx lines 428-459): midpoint of the two
endpoints, displaced along the normalized perpendicular of their difference
by a curve factor built from the distance and a seed derived
deterministically from the coordinates.  `Math.sqrt(...) || 1` replaces a
zero length by 1. -/
noncomputable def controlPoint (fromPt toPt : ℝ × ℝ) : ℝ × ℝ :=
  let midX := (fromPt.1 + toPt.1) / 2
  let midY := (fromPt.2 + toPt.2) / 2
  let dx := toPt.1 - fromPt.1
  let dy := toPt.2 - fromPt.2
  let perpX := -dy
  let perpY := dx
  let length := if Real.sqrt (perpX * perpX + perpY * perpY) = 0 then 1
    else Real.sqrt (perpX * perpX + perpY * perpY)
  let normalizedPerpX := perpX / length
  let normalizedPerpY := perpY / length
  let distance := Real.sqrt (dx * dx + dy * dy)
  let seed := jsMod (fromPt.1 * 1000 + fromPt.2 + toPt.1 * 100 + toPt.2)
    1000 / 1000
  let randomFactor := 0.15 + seed * 0.3
  let distanceFactor := min 1 (distance / 50)
  let curveFactor := min (distance * randomFactor * distanceFactor) 25
  (midX + normalizedPerpX * curveFactor, midY + normalizedPerpY * curveFactor)

/-- Function `generateCurvedPath` (src/components/connection-lines.tsx
lines 426-492; identical copy in src/unnamed/part_003): the Bézier points at
`t = i / steps` for `i = 0, …, steps`, falling back to the straight segment
`[from, to]` when fewer than 2 points were produced.  The `isNaN` filter of
lines 477-479 never rejects a point in the real-number model, and the
`catch` branch is unreachable. -/
noncomputable def generateCurvedPath (fromPt toPt : ℝ × ℝ)
    (steps : ℕ) : List (ℝ × ℝ) :=
  let path := (List.range (steps + 1)).map
    (fun (i : ℕ) => bezierPoint fromPt toPt (controlPoint fromPt toPt)
      ((i : ℝ) / (steps : ℝ)))
  if path.length < 2 then [fromPt, toPt] else path

theorem bezierPoint_zero (fromPt toPt ctrl : ℝ × ℝ) :
    bezierPoint fromPt toPt ctrl 0 = fromPt := by
  rw [bezierPoint, Prod.ext_iff]
  constructor <;> · dsimp only; ring

theorem bezierPoint_one (fromPt toPt ctrl : ℝ × ℝ) :
    bezierPoint fromPt toPt ctrl 1 = toPt := by
  rw [bezierPoint, Prod.ext_iff]
  constructor <;> · dsimp only; ring

/-- C4: for `steps ≥ 1` the generated path has `steps + 1` points, its
`i`-th point is the quadratic Bézier point at `t = i / steps` for the
perpendicularly displaced control point, its first point is `from`, its
last point is `to`, and it always has at least 2 points. -/
theorem generateCurvedPath_spec (fromPt toPt : ℝ × ℝ) (steps : ℕ)
    (h : 1 ≤ steps) :
    (generateCurvedPath fromPt toPt steps).length = steps + 1 ∧
    (∀ i, i ≤ steps → (generateCurvedPath fromPt toPt steps)[i]? =
      some (bezierPoint fromPt toPt (controlPoint fromPt toPt)
        ((i : ℝ) / (steps : ℝ)))) ∧
    (generateCurvedPath fromPt toPt steps)[0]? = some fromPt ∧
    (generateCurvedPath fromPt toPt steps)[steps]? = some toPt ∧
    2 ≤ (generateCurvedPath fromPt toPt steps).length := by
  have hgen : generateCurvedPath fromPt toPt steps =
      (List.range (steps + 1)).map
        (fun (i : ℕ) => bezierPoint fromPt toPt (controlPoint fromPt toPt)
          ((i : ℝ) / (steps : ℝ))) := by
    simp only [generateCurvedPath]
    rw [if_neg]
    simp only [List.length_map, List.length_range]
    omega
  have hget : ∀ i, i ≤ steps → (generateCurvedPath fromPt toPt steps)[i]? =
      some (bezierPoint fromPt toPt (controlPoint fromPt toPt)
        ((i : ℝ) / (steps : ℝ))) := by
    intro i hi
    rw [hgen, List.getElem?_map, List.getElem?_range (by omega)]
    rfl
  have hsne : ((steps : ℕ) : ℝ) ≠ 0 := Nat.cast_ne_zero.mpr (by omega)
  refine ⟨by rw [hgen]; simp, hget, ?_, ?_, ?_⟩
  · rw [hget 0 (by omega)]
    rw [Nat.cast_zero, zero_div, bezierPoint_zero]
  · rw [hget steps le_rfl]
    rw [div_self hsne, bezierPoint_one]
  · rw [hgen]
    simp only [List.length_map, List.length_range]
    omega

/-- Witness for C4: the path from (0, 0) to (3, 4) with 2 steps. -/
theorem generateCurvedPath_spec_witness :
    (1 : ℕ) ≤ 2 ∧
    (generateCurvedPath ((0 : ℝ), (0 : ℝ)) ((3 : ℝ), (4 : ℝ)) 2).length =
      2 + 1 ∧
    (generateCurvedPath ((0 : ℝ), (0 : ℝ)) ((3 : ℝ), (4 : ℝ)) 2)[0]? =
      some ((0 : ℝ), (0 : ℝ)) ∧
    (generateCurvedPath ((0 : ℝ), (0 : ℝ)) ((3 : ℝ), (4 : ℝ)) 2)[2]? =
      some ((3 : ℝ), (4 : ℝ)) :=
  ⟨by norm_num,
   (generateCurvedPath_spec ((0 : ℝ), (0 : ℝ)) ((3 : ℝ), (4 : ℝ)) 2
     (by norm_num)).1,
   (generateCurvedPath_spec ((0 : ℝ), (0 : ℝ)) ((3 : ℝ), (4 : ℝ)) 2
     (by norm_num)).2.2.1,
   (generateCurvedPath_spec ((0 : ℝ), (0 : ℝ)) ((3 : ℝ), (4 : ℝ)) 2
     (by norm_num)).2.2.2.1⟩

/-- C5: the function `generateCurvedPath` is deterministic — two invocations with equal
arguments return equal paths; the apparent randomization (`randomFactor`)
is derived from the seed, a pure function of the coordinates inside
`controlPoint`, with no external random source. -/
theorem generateCurvedPath_deterministic (f₁ t₁ f₂ t₂ : ℝ × ℝ)
    (s₁ s₂ : ℕ) (hf : f₁ = f₂) (ht : t₁ = t₂) (hs : s₁ = s₂) :
    generateCurvedPath f₁ t₁ s₁ = generateCurvedPath f₂ t₂ s₂ := by
  subst hf; subst ht; subst hs; rfl

/-- Witness for C5: two invocations at the same concrete arguments. -/
theorem generateCurvedPath_deterministic_witness :
    ((0 : ℝ), (0 : ℝ)) = ((0 : ℝ), (0 : ℝ)) ∧ (3 : ℕ) = 3 ∧
    generateCurvedPath ((0 : ℝ), (0 : ℝ)) ((1 : ℝ), (2 : ℝ)) 3 =
      generateCurvedPath ((0 : ℝ), (0 : ℝ)) ((1 : ℝ), (2 : ℝ)) 3 :=
  ⟨rfl, rfl,
   generateCurvedPath_deterministic ((0 : ℝ), (0 : ℝ)) ((1 : ℝ), (2 : ℝ))
     ((0 : ℝ), (0 : ℝ)) ((1 : ℝ), (2 : ℝ)) 3 3 rfl rfl rfl⟩

end GrantsMap
